import Mathlib

/-!
Verification of the trade-confirmation workflow, quantity-adjustment
arithmetic and balance valuation of the Telegram/Binance trading bot
(source file `achat_buy_telegram.py`).

Modelling conventions (shallow embedding):

* Python `Decimal` values are modelled as exact rationals (`ℚ`).  All
  quantities appearing in the verified claims are exactly representable,
  so the global context precision of 8 significant digits set by
  `getcontext().prec = 8` never rounds in the situations the theorems
  cover.  A `Decimal` literal such as a Binance `stepSize` string
  ("0.00100000") is modelled by its coefficient/exponent pair (`Dec`),
  because `execute_trade` derives the quantisation precision from the
  exponent of the parsed `Decimal`.
* Python strings are modelled as `List Char` (`Str`); the handful of
  string methods the bot uses (`upper`, `endswith`, `startswith`,
  `split`, `replace`) are given structurally recursive counterparts with
  the same semantics, so that concrete runs reduce inside the kernel.
* The Binance client is an oracle (`Env`): each read endpoint is a
  function returning `Option`/`Except` values, `none`/`error` standing
  for a raised exception.  The calls a handler performs are returned as
  an explicit trace (`List Call`), which is how "no exchange call is
  made" is expressed.
* The user-facing reply texts (French format strings in the source) are
  modelled by the inductive `Msg`, one constructor per distinct format
  string, carrying exactly the interpolated values.
* The global dict `pending_orders` is modelled as a map
  `Nat → Option PendingOrder` passed in and out of the handlers.
-/

/-- Python strings, modelled as lists of characters. -/
abbrev Str := List Char

/-- Python `str.upper` (the bot only upcases ASCII pair names). -/
def strUpper (s : Str) : Str := s.map Char.toUpper

/-- Python `s.endswith (t)`: `t` is a suffix of `s`. -/
def strEndsWith (s t : Str) : Bool := List.isSuffixOf t s

/-- Python `s.startswith (t)`: `t` is a prefix of `s`. -/
def strStartsWith (s t : Str) : Bool := List.isPrefixOf t s

/-- Python `s.split (sep)` for a one-character separator. -/
def strSplit (sep : Char) : Str → List Str
  | [] => [[]]
  | c :: rest =>
      let r := strSplit sep rest
      if c = sep then [] :: r
      else (c :: r.headD []) :: r.tail

/-- Fuel-driven worker for `strReplace` (structural recursion on the
fuel, so that concrete runs reduce inside the kernel). -/
def strReplaceAux (pat rep : Str) : Nat → Str → Str
  | 0, s => s
  | _ + 1, [] => []
  | fuel + 1, c :: rest =>
      if List.isPrefixOf pat (c :: rest) then
        rep ++ strReplaceAux pat rep fuel ((c :: rest).drop pat.length)
      else
        c :: strReplaceAux pat rep fuel rest

/-- Python `s.replace (pat, rep)`: replace every occurrence of `pat`,
scanning left to right (the bot only uses nonempty patterns). -/
def strReplace (s pat rep : Str) : Str := strReplaceAux pat rep s.length s

/-- A parsed `Decimal` with nonpositive exponent, as produced by parsing
a Binance filter string such as "0.00100000": coefficient `coeff`,
`exp` fractional digits.  Its value is `coeff / 10 ^ exp`. -/
structure Dec where
  coeff : Nat
  exp : Nat
deriving DecidableEq

/-- Numeric value of a parsed decimal. -/
def Dec.toRat (d : Dec) : ℚ := (d.coeff : ℚ) / 10 ^ d.exp

/-- Rounding to the nearest integer, ties to even: the default
`ROUND_HALF_EVEN` of Python `Decimal.quantize`. -/
def roundHalfEven (x : ℚ) : ℤ :=
  if x - ⌊x⌋ < 1 / 2 then ⌊x⌋
  else if 1 / 2 < x - ⌊x⌋ then ⌊x⌋ + 1
  else if ⌊x⌋ % 2 = 0 then ⌊x⌋ else ⌊x⌋ + 1

/-- Python `x.quantize (Decimal (10) ** -e)`: re-express `x` at `e`
fractional digits, rounding half-even. -/
def quantize (x : ℚ) (e : Nat) : ℚ := (roundHalfEven (x * 10 ^ e) : ℚ) / 10 ^ e

/-- The LOT_SIZE rule of a symbol as returned by `check_symbol_rules`:
minimum quantity and step size. -/
structure SymbolRules where
  min_qty : ℚ
  step_size : Dec
deriving DecidableEq

/-- A filled order as returned by the exchange on submission. -/
structure OrderResult where
  symbol : Str
  executedQty : ℚ
  fillPrice : Option ℚ
  cummulativeQuoteQty : ℚ
deriving DecidableEq

/-- The Binance client, as an oracle: `none` (resp. `Except.error`)
models a raised exception or missing data. -/
structure Env where
  /-- Model of `check_symbol_rules`: the LOT_SIZE filter of a pair, or `none` on failure. -/
  check_symbol_rules : Str → Option SymbolRules
  /-- Model of `get_symbol_ticker`: the price of a symbol, `none` when the call raises. -/
  ticker_price : Str → Option ℚ
  /-- Raw result of the free-balance lookup inside `get_asset_balance`,
  `none` when the call raises. -/
  free_lookup : Str → Option ℚ
  /-- Outcome of `order_market_buy` / `order_market_sell` for a symbol,
  quantity and direction. -/
  submit : Str → ℚ → Bool → Except Str OrderResult

/-- One exchange API call performed by a handler. -/
inductive Call
  | getSymbolInfo (pair : Str)
  | getSymbolTicker (pair : Str)
  | getAssetBalance (asset : Str)
  | orderMarket (pair : Str) (quantity : ℚ) (is_buy : Bool)
deriving DecidableEq

/-- Failures of `execute_trade`, one constructor per error message. -/
inductive TradeErr
  /-- Message "Regles de trading non disponibles". -/
  | rulesUnavailable
  /-- Message "Quantite trop faible. Minimum: min_qty". -/
  | quantityTooSmall (min_qty : ℚ)
  /-- Message "Erreur Binance: e.message". -/
  | binanceRejected (msg : Str)
deriving DecidableEq

/-- A pending order stored in `pending_orders`. -/
structure PendingOrder where
  pair : Str
  quantity : ℚ
  is_buy : Bool
deriving DecidableEq

/-- The global `pending_orders` dict, keyed by Telegram user id. -/
abbrev PendingMap := Nat → Option PendingOrder

/-- The user-facing replies, one constructor per format string of the
source, carrying the interpolated values. -/
inductive Msg
  /-- Message "Seules les paires USDT/USDC sont supportees". -/
  | invalidPair
  /-- Message "Solde insuffisant. Disponible: balance asset". -/
  | insufficientBalance (balance : ℚ) (asset : Str)
  /-- The confirmation prompt with pair, quantity, price and total. -/
  | confirmPrompt (pair : Str) (quantity price total : ℚ) (is_buy : Bool)
  /-- Success report of an executed trade. -/
  | tradeSuccess (order : OrderResult) (is_buy : Bool)
  /-- An `execute_trade` failure relayed to the user. -/
  | tradeError (e : TradeErr)
  /-- Message "Operation expiree". -/
  | expired
  /-- Message "Operation annulee". -/
  | cancelled
  /-- The generic handler for a raised exception ("Erreur: ..."). -/
  | upstreamError
  /-- Callback data matching no branch: no reply is sent. -/
  | noReply
deriving DecidableEq

/-- Model of `get_asset_balance`: free balance of an asset, zero when the
lookup raises. -/
def get_asset_balance (fetched : Option ℚ) : ℚ :=
  match fetched with
  | some free => free
  | none => 0

/-- The quantity adjustment inside `execute_trade`: floor the requested
quantity to a multiple of the step size, then re-express it at the
precision given by the step-size exponent. -/
def adjust_quantity (quantity : ℚ) (step : Dec) : ℚ :=
  quantize ((⌊quantity / step.toRat⌋ : ℚ) * step.toRat) step.exp

/-- Model of `execute_trade`: fetch the symbol rules, adjust the quantity, check
the minimum, submit a market order.  Returns the outcome together with
the trace of exchange calls performed. -/
def execute_trade (env : Env) (pair : Str) (quantity : ℚ) (is_buy : Bool) :
    Except TradeErr OrderResult × List Call :=
  match env.check_symbol_rules pair with
  | none => (Except.error TradeErr.rulesUnavailable, [Call.getSymbolInfo pair])
  | some rules =>
      let adjusted_qty := adjust_quantity quantity rules.step_size
      if adjusted_qty < rules.min_qty then
        (Except.error (TradeErr.quantityTooSmall rules.min_qty), [Call.getSymbolInfo pair])
      else
        match env.submit pair adjusted_qty is_buy with
        | Except.ok order =>
            (Except.ok order, [Call.getSymbolInfo pair, Call.orderMarket pair adjusted_qty is_buy])
        | Except.error e =>
            (Except.error (TradeErr.binanceRejected e),
              [Call.getSymbolInfo pair, Call.orderMarket pair adjusted_qty is_buy])

/-- Base asset of a pair, as computed in the sell branch of
`confirm_trade`: strip the substrings "USDT" and "USDC". -/
def base_asset (pair : Str) : Str :=
  strReplace (strReplace pair "USDT".data []) "USDC".data []

/-- Store the pending order for the user, then fetch the price again to
build the confirmation prompt (lines 198-223 of the source).  A failure
of this second ticker call is caught by the generic handler, but the
pending order has already been stored at that point. -/
def store_and_prompt (env : Env) (st : PendingMap) (user_id : Nat)
    (pair : Str) (quantity : ℚ) (is_buy : Bool) (calls : List Call) :
    PendingMap × Msg × List Call :=
  let od : PendingOrder := { pair := pair, quantity := quantity, is_buy := is_buy }
  let st2 : PendingMap := fun u => if u = user_id then some od else st u
  match env.ticker_price pair with
  | none => (st2, Msg.upstreamError, calls ++ [Call.getSymbolTicker pair])
  | some price =>
      (st2, Msg.confirmPrompt pair quantity price (quantity * price) is_buy,
        calls ++ [Call.getSymbolTicker pair])

/-- Model of `confirm_trade` for a command with two parsed arguments
`amount` and `pairArg`: validate the pair suffix, compute the quantity
(for buy, notional divided by current price; for sell, the amount after
a balance check), then store the pending order and show the prompt.
A zero price makes the buy-side division raise `DivisionByZero`, which
the generic handler catches before anything is stored. -/
def confirm_trade (env : Env) (st : PendingMap) (user_id : Nat)
    (amount : ℚ) (pairArg : Str) (is_buy : Bool) :
    PendingMap × Msg × List Call :=
  let pair := strUpper pairArg
  if ¬ (strEndsWith pair "USDT".data = true ∨ strEndsWith pair "USDC".data = true) then
    (st, Msg.invalidPair, [])
  else if is_buy then
    match env.ticker_price pair with
    | none => (st, Msg.upstreamError, [Call.getSymbolTicker pair])
    | some price =>
        if price = 0 then (st, Msg.upstreamError, [Call.getSymbolTicker pair])
        else
          store_and_prompt env st user_id pair (amount / price) true
            [Call.getSymbolTicker pair]
  else
    let asset := base_asset pair
    let balance := get_asset_balance (env.free_lookup asset)
    if amount > balance then
      (st, Msg.insufficientBalance balance asset, [Call.getAssetBalance asset])
    else
      store_and_prompt env st user_id pair amount false [Call.getAssetBalance asset]

/-- Pair embedded in a confirm callback payload: element 1 of the
split on underscores, as in `data.split ("_") [1]`. -/
def callback_pair (data : Str) : Str := (strSplit '_' data).getD 1 []

/-- Model of `handle_button`: dispatch on the callback data.  A
"confirm_<pair>" payload looks the pending order up and, when the pair
matches, runs `execute_trade` with the stored data; the pending entry is
left in the map in every branch of the confirm arm.  A "cancel" payload
pops the pending entry unconditionally. -/
def handle_button (env : Env) (st : PendingMap) (user_id : Nat) (data : Str) :
    PendingMap × Msg × List Call :=
  if strStartsWith data "confirm_".data = true then
    let pair := callback_pair data
    match st user_id with
    | some order_data =>
        if order_data.pair = pair then
          let r := execute_trade env order_data.pair order_data.quantity order_data.is_buy
          match r.1 with
          | Except.ok order => (st, Msg.tradeSuccess order order_data.is_buy, r.2)
          | Except.error e => (st, Msg.tradeError e, r.2)
        else (st, Msg.expired, [])
    | none => (st, Msg.expired, [])
  else if data = "cancel".data then
    (fun u => if u = user_id then none else st u, Msg.cancelled, [])
  else
    (st, Msg.noReply, [])

/-- One line of the `/balance` listing. -/
structure BalanceEntry where
  asset : Str
  free : ℚ
  value : ℚ
deriving DecidableEq

/-- The valuation loop of `get_all_balances` for one non-stablecoin
asset: try the ticker of asset+USDT, then asset+USDC, and take the first
price that resolves. -/
def try_stable_price (ticker : Str → Option ℚ) (asset : Str) : List Str → Option ℚ
  | [] => none
  | coin :: rest =>
      match ticker (asset ++ coin) with
      | some price => some price
      | none => try_stable_price ticker asset rest

/-- Valuation of one balance line: stablecoins count at their free
amount, other assets at free times the first resolvable stablecoin
price, zero when neither pair resolves. -/
def usdt_value (ticker : Str → Option ℚ) (asset : Str) (free : ℚ) : ℚ :=
  if asset = "USDT".data ∨ asset = "USDC".data then free
  else
    match try_stable_price ticker asset ["USDT".data, "USDC".data] with
    | some price => free * price
    | none => 0

/-- Stable insertion into a list sorted by decreasing value (the model
of the stable `sorted (..., key := fun x => -value x)` of the source). -/
def insert_by_value (e : BalanceEntry) : List BalanceEntry → List BalanceEntry
  | [] => [e]
  | f :: rest =>
      if f.value ≤ e.value then e :: f :: rest else f :: insert_by_value e rest

/-- Stable sort by decreasing value. -/
def sort_by_value : List BalanceEntry → List BalanceEntry
  | [] => []
  | e :: rest => insert_by_value e (sort_by_value rest)

/-- Model of `get_all_balances`: keep the account lines whose free
amount exceeds 0.0001, value each one, and sort by decreasing value.
The account snapshot is the list of (asset, free) pairs returned by
`get_account`. -/
def get_all_balances (ticker : Str → Option ℚ) (account : List (Str × ℚ)) :
    List BalanceEntry :=
  sort_by_value
    ((account.filter (fun it => (1 / 10000 : ℚ) < it.2)).map
      (fun it => { asset := it.1, free := it.2, value := usdt_value ticker it.1 it.2 }))

/-- Quantity a command stores when it passes validation, mirroring the
branch structure of `confirm_trade`: for buy, notional over price
(provided the ticker resolves and the price is nonzero); for sell, the
amount itself (provided it does not exceed the free balance).  Returns
`none` exactly when `confirm_trade` stores nothing past the pair check. -/
def command_quantity (env : Env) (amount : ℚ) (pair : Str) (is_buy : Bool) : Option ℚ :=
  if is_buy then
    match env.ticker_price pair with
    | none => none
    | some price => if price = 0 then none else some (amount / price)
  else
    if amount > get_asset_balance (env.free_lookup (base_asset pair)) then none
    else some amount

/-- Example oracle used by the concrete witnesses: BTCUSDT trades at
50000 with step size 0.0001 and minimum quantity 0.0001, the free ETH
balance is 0.3, the free-balance lookup fails for every other asset,
and order submission succeeds. -/
def envEx : Env where
  check_symbol_rules := fun p =>
    if p = "BTCUSDT".data then some { min_qty := 1 / 10000, step_size := ⟨1, 4⟩ } else none
  ticker_price := fun p => if p = "BTCUSDT".data then some 50000 else none
  free_lookup := fun a => if a = "ETH".data then some (3 / 10) else none
  submit := fun p q _ =>
    Except.ok { symbol := p, executedQty := q, fillPrice := some 50000,
                cummulativeQuoteQty := q * 50000 }

/-- Empty pending-order map. -/
def stEmpty : PendingMap := fun _ => none

/-- Pending buy of 0.002 BTC against BTCUSDT. -/
def odEx : PendingOrder := { pair := "BTCUSDT".data, quantity := 1 / 500, is_buy := true }

/-- Map holding `odEx` for user 1. -/
def stEx : PendingMap := fun u => if u = 1 then some odEx else none

/-- Rounding an integer changes nothing. -/
theorem roundHalfEven_intCast (k : ℤ) : roundHalfEven (k : ℚ) = k := by
  simp [roundHalfEven]

/-- Quantisation is the identity on values already expressible at the
target exponent. -/
theorem quantize_eq_self (x : ℚ) (e : Nat) (k : ℤ) (hk : x * 10 ^ e = (k : ℚ)) :
    quantize x e = x := by
  have h10 : ((10 : ℚ) ^ e) ≠ 0 := by positivity
  unfold quantize
  rw [hk, roundHalfEven_intCast, ← hk]
  field_simp

/-- The adjusted quantity is exactly the floored multiple of the step:
the final quantisation step never rounds. -/
theorem adjust_quantity_eq (q : ℚ) (step : Dec) :
    adjust_quantity q step = (⌊q / step.toRat⌋ : ℚ) * step.toRat := by
  apply quantize_eq_self _ _ (⌊q / step.toRat⌋ * step.coeff)
  have h10 : ((10 : ℚ) ^ step.exp) ≠ 0 := by positivity
  simp only [Dec.toRat]
  push_cast
  field_simp

/-- The adjusted quantity never exceeds the requested quantity. -/
theorem adjust_quantity_le (q : ℚ) (step : Dec) (hS : 0 < step.toRat) :
    adjust_quantity q step ≤ q := by
  rw [adjust_quantity_eq]
  calc (⌊q / step.toRat⌋ : ℚ) * step.toRat
      ≤ (q / step.toRat) * step.toRat :=
        mul_le_mul_of_nonneg_right (Int.floor_le _) hS.le
    _ = q := div_mul_cancel₀ q hS.ne'

/-- C2: for positive requested quantity, step size and minimum, the
adjustment before submission yields an exact multiple of the step that
never exceeds the request, and either reaches the minimum or
`execute_trade` fails with the quantity-too-small error carrying the
minimum and submits no order. -/
theorem C2_adjustment_sound (env : Env) (pair : Str) (q : ℚ) (is_buy : Bool)
    (rules : SymbolRules) (hrules : env.check_symbol_rules pair = some rules)
    (hq : 0 < q) (hS : 0 < rules.step_size.toRat) (hM : 0 < rules.min_qty) :
    (∃ k : ℤ, adjust_quantity q rules.step_size = (k : ℚ) * rules.step_size.toRat) ∧
    adjust_quantity q rules.step_size ≤ q ∧
    (rules.min_qty ≤ adjust_quantity q rules.step_size ∨
      ((execute_trade env pair q is_buy).1 =
          Except.error (TradeErr.quantityTooSmall rules.min_qty) ∧
        ∀ p a b, Call.orderMarket p a b ∉ (execute_trade env pair q is_buy).2)) := by
  refine ⟨⟨⌊q / rules.step_size.toRat⌋, adjust_quantity_eq q rules.step_size⟩,
    adjust_quantity_le q rules.step_size hS, ?_⟩
  by_cases h : adjust_quantity q rules.step_size < rules.min_qty
  · right
    constructor
    · simp [execute_trade, hrules, h]
    · intro p a b
      simp [execute_trade, hrules, h]
  · exact Or.inl (not_lt.mp h)

/-- Witness for C2: requested quantity 0.002 on BTCUSDT in `envEx`. -/
theorem C2_adjustment_sound_witness :
    envEx.check_symbol_rules "BTCUSDT".data =
      some { min_qty := 1 / 10000, step_size := ⟨1, 4⟩ } ∧
    (0 : ℚ) < 1 / 500 ∧ (0 : ℚ) < Dec.toRat ⟨1, 4⟩ ∧ (0 : ℚ) < 1 / 10000 ∧
    ((∃ k : ℤ, adjust_quantity (1 / 500) ⟨1, 4⟩ = (k : ℚ) * Dec.toRat ⟨1, 4⟩) ∧
      adjust_quantity (1 / 500) ⟨1, 4⟩ ≤ 1 / 500 ∧
      ((1 / 10000 : ℚ) ≤ adjust_quantity (1 / 500) ⟨1, 4⟩ ∨
        ((execute_trade envEx "BTCUSDT".data (1 / 500) true).1 =
            Except.error (TradeErr.quantityTooSmall (1 / 10000)) ∧
          ∀ p a b,
            Call.orderMarket p a b ∉ (execute_trade envEx "BTCUSDT".data (1 / 500) true).2))) :=
  ⟨rfl, by norm_num, by norm_num [Dec.toRat], by norm_num,
    C2_adjustment_sound envEx "BTCUSDT".data (1 / 500) true
      { min_qty := 1 / 10000, step_size := ⟨1, 4⟩ } rfl (by norm_num)
      (by norm_num [Dec.toRat]) (by norm_num)⟩

/-- C7: a buy or sell whose pair (upcased) does not end in USDT or USDC
is rejected with the invalid-pair message, no exchange call is made and
the pending-order map is unchanged. -/
theorem C7_invalid_pair_rejected (env : Env) (st : PendingMap) (user_id : Nat)
    (amount : ℚ) (pairArg : Str) (is_buy : Bool)
    (hpair : ¬ (strEndsWith (strUpper pairArg) "USDT".data = true ∨
      strEndsWith (strUpper pairArg) "USDC".data = true)) :
    confirm_trade env st user_id amount pairArg is_buy = (st, Msg.invalidPair, []) := by
  simp [confirm_trade, hpair]

/-- Witness for C7: buy 100 BTCETH. -/
theorem C7_invalid_pair_rejected_witness :
    confirm_trade envEx stEmpty 1 100 "BTCETH".data true = (stEmpty, Msg.invalidPair, []) :=
  C7_invalid_pair_rejected envEx stEmpty 1 100 "BTCETH".data true (by decide)

/-- C5: a sell whose amount exceeds the free balance of the base asset
is rejected with the insufficient-balance message carrying that balance;
the pending-order map is unchanged and no order is submitted. -/
theorem C5_insufficient_balance (env : Env) (st : PendingMap) (user_id : Nat)
    (amount : ℚ) (pairArg : Str)
    (hpair : strEndsWith (strUpper pairArg) "USDT".data = true ∨
      strEndsWith (strUpper pairArg) "USDC".data = true)
    (hover : get_asset_balance (env.free_lookup (base_asset (strUpper pairArg))) < amount) :
    confirm_trade env st user_id amount pairArg false =
      (st, Msg.insufficientBalance
            (get_asset_balance (env.free_lookup (base_asset (strUpper pairArg))))
            (base_asset (strUpper pairArg)),
        [Call.getAssetBalance (base_asset (strUpper pairArg))]) ∧
    ∀ p q b, Call.orderMarket p q b ∉ (confirm_trade env st user_id amount pairArg false).2.2 := by
  constructor
  · simp [confirm_trade, hpair, hover]
  · intro p q b
    simp [confirm_trade, hpair, hover]

/-- Witness for C5: sell 0.5 ETHUSDC with a free ETH balance of 0.3. -/
theorem C5_insufficient_balance_witness :
    confirm_trade envEx stEmpty 1 (1 / 2) "ETHUSDC".data false =
      (stEmpty, Msg.insufficientBalance (3 / 10) "ETH".data,
        [Call.getAssetBalance "ETH".data]) := by
  have hb : base_asset (strUpper "ETHUSDC".data) = "ETH".data := by decide
  have hf : envEx.free_lookup "ETH".data = some (3 / 10) := rfl
  have hover : get_asset_balance (envEx.free_lookup (base_asset (strUpper "ETHUSDC".data))) <
      1 / 2 := by
    rw [hb, hf]
    norm_num [get_asset_balance]
  have h := (C5_insufficient_balance envEx stEmpty 1 (1 / 2) "ETHUSDC".data (by decide) hover).1
  rw [hb, hf] at h
  simpa [get_asset_balance] using h

/-- Passing validation makes `confirm_trade` store the pending order
derived from the command at the user key, leaving every other key
untouched. -/
theorem confirm_trade_stores (env : Env) (st : PendingMap) (user_id : Nat)
    (amount : ℚ) (pairArg : Str) (is_buy : Bool) (qty : ℚ)
    (hpair : strEndsWith (strUpper pairArg) "USDT".data = true ∨
      strEndsWith (strUpper pairArg) "USDC".data = true)
    (hqty : command_quantity env amount (strUpper pairArg) is_buy = some qty) :
    ((confirm_trade env st user_id amount pairArg is_buy).1) user_id =
      some { pair := strUpper pairArg, quantity := qty, is_buy := is_buy } ∧
    ∀ v, v ≠ user_id →
      ((confirm_trade env st user_id amount pairArg is_buy).1) v = st v := by
  cases is_buy with
  | true =>
      simp only [command_quantity, if_pos] at hqty
      cases hp : env.ticker_price (strUpper pairArg) with
      | none => rw [hp] at hqty; exact absurd hqty (by simp)
      | some price =>
          rw [hp] at hqty
          dsimp only at hqty
          by_cases hz : price = 0
          · rw [if_pos hz] at hqty; exact absurd hqty (by simp)
          · rw [if_neg hz] at hqty
            obtain rfl : amount / price = qty := by simpa using hqty
            constructor
            · simp [confirm_trade, hpair, hp, hz, store_and_prompt]
            · intro v hv
              simp [confirm_trade, hpair, hp, hz, store_and_prompt, hv]
  | false =>
      simp only [command_quantity, if_neg] at hqty
      by_cases hb : amount > get_asset_balance (env.free_lookup (base_asset (strUpper pairArg)))
      · rw [if_pos hb] at hqty; exact absurd hqty (by simp)
      · rw [if_neg hb] at hqty
        obtain rfl : amount = qty := by simpa using hqty
        constructor
        · simp [confirm_trade, hpair, hb, store_and_prompt]
          cases env.ticker_price (strUpper pairArg) <;> simp
        · intro v hv
          simp [confirm_trade, hpair, hb, store_and_prompt]
          cases env.ticker_price (strUpper pairArg) <;> simp [hv]

/-- C4: a second valid buy or sell command issued while a pending order
exists overwrites it; the stored entry afterwards is the one derived
from the most recent command, and no other user is affected. -/
theorem C4_last_request_wins (env : Env) (st : PendingMap) (user_id : Nat)
    (amount : ℚ) (pairArg : Str) (is_buy : Bool) (qty : ℚ) (od_prev : PendingOrder)
    (hprev : st user_id = some od_prev)
    (hpair : strEndsWith (strUpper pairArg) "USDT".data = true ∨
      strEndsWith (strUpper pairArg) "USDC".data = true)
    (hqty : command_quantity env amount (strUpper pairArg) is_buy = some qty) :
    ((confirm_trade env st user_id amount pairArg is_buy).1) user_id =
      some { pair := strUpper pairArg, quantity := qty, is_buy := is_buy } ∧
    ∀ v, v ≠ user_id →
      ((confirm_trade env st user_id amount pairArg is_buy).1) v = st v :=
  confirm_trade_stores env st user_id amount pairArg is_buy qty hpair hqty

/-- Witness for C4: user 1 holds the pending buy `odEx` and then issues
a valid sell of 0.1 ETHUSDC, which replaces it. -/
theorem C4_last_request_wins_witness :
    stEx 1 = some odEx ∧
    ((confirm_trade envEx stEx 1 (1 / 10) "ETHUSDC".data false).1) 1 =
      some { pair := "ETHUSDC".data, quantity := 1 / 10, is_buy := false } := by
  have hu : strUpper "ETHUSDC".data = "ETHUSDC".data := by decide
  have hb : base_asset (strUpper "ETHUSDC".data) = "ETH".data := by decide
  have hqty : command_quantity envEx (1 / 10) (strUpper "ETHUSDC".data) false =
      some (1 / 10) := by
    norm_num [command_quantity, hb, envEx, get_asset_balance]
  have h := (C4_last_request_wins envEx stEx 1 (1 / 10) "ETHUSDC".data false (1 / 10)
    odEx rfl (by decide) hqty).1
  rw [hu] at h
  exact ⟨rfl, h⟩

/-- C3: a confirm action finding no pending order for the user, or one
whose stored pair differs from the pair embedded in the callback data,
answers with the expired message, performs no exchange call and leaves
the pending-order map unchanged. -/
theorem C3_mismatch_expires (env : Env) (st : PendingMap) (user_id : Nat) (data : Str)
    (hpre : strStartsWith data "confirm_".data = true)
    (hmm : ∀ od, st user_id = some od → od.pair ≠ callback_pair data) :
    handle_button env st user_id data = (st, Msg.expired, []) := by
  cases h : st user_id with
  | none => simp [handle_button, hpre, h]
  | some od => simp [handle_button, hpre, h, hmm od h]

/-- Witness for C3: confirm for BTCUSDT with an empty pending map. -/
theorem C3_mismatch_expires_witness :
    handle_button envEx stEmpty 1 "confirm_BTCUSDT".data = (stEmpty, Msg.expired, []) :=
  C3_mismatch_expires envEx stEmpty 1 "confirm_BTCUSDT".data (by decide)
    (fun od h => by simp [stEmpty] at h)

/-- C6: cancel removes the requesting user pending order unconditionally
and reports cancellation with no exchange call; when no pending order
exists it is a no-op on the map, and cancelling twice in a row changes
nothing further and still triggers no trade. -/
theorem C6_cancel_idempotent (env : Env) (st : PendingMap) (user_id : Nat) :
    ((handle_button env st user_id "cancel".data).1) user_id = none ∧
    (∀ v, v ≠ user_id →
      ((handle_button env st user_id "cancel".data).1) v = st v) ∧
    (handle_button env st user_id "cancel".data).2.1 = Msg.cancelled ∧
    (handle_button env st user_id "cancel".data).2.2 = [] ∧
    (st user_id = none → (handle_button env st user_id "cancel".data).1 = st) ∧
    (handle_button env ((handle_button env st user_id "cancel".data).1)
        user_id "cancel".data).1 =
      (handle_button env st user_id "cancel".data).1 ∧
    (handle_button env ((handle_button env st user_id "cancel".data).1)
        user_id "cancel".data).2.2 = [] := by
  have hnc : strStartsWith "cancel".data "confirm_".data = false := by decide
  refine ⟨?_, ?_, ?_, ?_, ?_, ?_, ?_⟩
  · simp [handle_button, hnc]
  · intro v hv; simp [handle_button, hnc, hv]
  · simp [handle_button, hnc]
  · simp [handle_button, hnc]
  · intro h
    simp only [handle_button, hnc]
    funext v
    by_cases hv : v = user_id <;> simp [hv, h]
  · simp only [handle_button, hnc]
    funext v
    by_cases hv : v = user_id <;> simp [hv]
  · simp [handle_button, hnc]

/-- Witness for C6 at user 7 with an empty map, discharging the no-op
implication. -/
theorem C6_cancel_idempotent_witness :
    stEmpty 7 = none ∧
    ((handle_button envEx stEmpty 7 "cancel".data).1) 7 = none ∧
    (handle_button envEx stEmpty 7 "cancel".data).1 = stEmpty ∧
    (handle_button envEx stEmpty 7 "cancel".data).2.2 = [] :=
  ⟨rfl, (C6_cancel_idempotent envEx stEmpty 7).1,
    (C6_cancel_idempotent envEx stEmpty 7).2.2.2.2.1 rfl,
    (C6_cancel_idempotent envEx stEmpty 7).2.2.2.1⟩

/-- Amended C1: handling a confirm action leaves the pending-order map
unchanged — the entry is not removed, whether the trade execution
succeeds or fails — so a pending order that was confirmed once is found
again by a second identical confirm. -/
theorem C1_confirm_keeps_pending (env : Env) (st : PendingMap) (user_id : Nat) (data : Str)
    (hpre : strStartsWith data "confirm_".data = true) :
    (handle_button env st user_id data).1 = st ∧
    ∀ od, st user_id = some od →
      ((handle_button env st user_id data).1) user_id = some od := by
  have hst : (handle_button env st user_id data).1 = st := by
    cases h : st user_id with
    | none => simp [handle_button, hpre, h]
    | some od =>
        by_cases hp : od.pair = callback_pair data
        · simp only [handle_button, hpre, if_pos, h]
          cases (execute_trade env od.pair od.quantity od.is_buy).1 <;> simp [hp]
        · simp [handle_button, hpre, h, hp]
  exact ⟨hst, fun od h => by rw [hst, h]⟩

/-- Witness for amended C1: the matching confirm for `odEx` leaves the
map unchanged and the entry still present. -/
theorem C1_confirm_keeps_pending_witness :
    (handle_button envEx stEx 1 "confirm_BTCUSDT".data).1 = stEx ∧
    ((handle_button envEx stEx 1 "confirm_BTCUSDT".data).1) 1 = some odEx :=
  ⟨(C1_confirm_keeps_pending envEx stEx 1 "confirm_BTCUSDT".data (by decide)).1,
    (C1_confirm_keeps_pending envEx stEx 1 "confirm_BTCUSDT".data (by decide)).2 odEx rfl⟩

/-- Helper for the concrete runs: adjusting 0.002 with step 0.0001 is
the identity. -/
theorem adjust_ex : adjust_quantity (1 / 500) ⟨1, 4⟩ = 1 / 500 := by
  rw [adjust_quantity_eq]
  have h20 : ((1 : ℚ) / 500) / Dec.toRat ⟨1, 4⟩ = ((20 : ℤ) : ℚ) := by
    norm_num [Dec.toRat]
  rw [h20, Int.floor_intCast]
  norm_num [Dec.toRat]

/-- Helper for the concrete runs: the full successful execution of the
pending buy of 0.002 BTCUSDT in `envEx`. -/
theorem execute_ex :
    execute_trade envEx "BTCUSDT".data (1 / 500) true =
      (Except.ok { symbol := "BTCUSDT".data, executedQty := 1 / 500,
                   fillPrice := some 50000, cummulativeQuoteQty := (1 / 500) * 50000 },
        [Call.getSymbolInfo "BTCUSDT".data,
          Call.orderMarket "BTCUSDT".data (1 / 500) true]) := by
  have hr : envEx.check_symbol_rules "BTCUSDT".data =
      some { min_qty := 1 / 10000, step_size := ⟨1, 4⟩ } := rfl
  have hmin : ¬ (adjust_quantity (1 / 500) ⟨1, 4⟩ < (1 / 10000 : ℚ)) := by
    rw [adjust_ex]; norm_num
  norm_num [execute_trade, hr, hmin, adjust_ex, envEx]

/-- Restatement of `execute_ex` with the pair written as an explicit
character list, the form simp normalisation produces. -/
theorem execute_ex_lit :
    execute_trade envEx ['B', 'T', 'C', 'U', 'S', 'D', 'T'] (1 / 500) true =
      (Except.ok { symbol := ['B', 'T', 'C', 'U', 'S', 'D', 'T'], executedQty := 1 / 500,
                   fillPrice := some 50000, cummulativeQuoteQty := (1 / 500) * 50000 },
        [Call.getSymbolInfo ['B', 'T', 'C', 'U', 'S', 'D', 'T'],
          Call.orderMarket ['B', 'T', 'C', 'U', 'S', 'D', 'T'] (1 / 500) true]) :=
  execute_ex

/-- Helper for the concrete runs: the confirm action for `odEx` answers
with the success message, performs the order call, and leaves the map
untouched. -/
theorem handle_ex :
    handle_button envEx stEx 1 "confirm_BTCUSDT".data =
      (stEx, Msg.tradeSuccess { symbol := "BTCUSDT".data, executedQty := 1 / 500,
                                fillPrice := some 50000,
                                cummulativeQuoteQty := (1 / 500) * 50000 } true,
        [Call.getSymbolInfo "BTCUSDT".data,
          Call.orderMarket "BTCUSDT".data (1 / 500) true]) := by
  have hpre : strStartsWith "confirm_BTCUSDT".data "confirm_".data = true := by decide
  have hcb : callback_pair "confirm_BTCUSDT".data = "BTCUSDT".data := by decide
  have hst : stEx 1 = some odEx := rfl
  simp only [handle_button, hpre, if_pos, hcb, hst]
  norm_num [odEx, execute_ex_lit]

/-- Counterexample to C1: after a matching confirm whose execution
succeeds, the pending entry is still in the map (it is never removed by
the confirm arm), and a second identical confirm finds it and submits
the order again. -/
theorem C1_counterexample :
    stEx 1 = some odEx ∧
    odEx.pair = callback_pair "confirm_BTCUSDT".data ∧
    (∃ o, (handle_button envEx stEx 1 "confirm_BTCUSDT".data).2.1 =
      Msg.tradeSuccess o true) ∧
    ((handle_button envEx stEx 1 "confirm_BTCUSDT".data).1) 1 ≠ none ∧
    ((handle_button envEx stEx 1 "confirm_BTCUSDT".data).1) 1 = some odEx ∧
    Call.orderMarket "BTCUSDT".data (1 / 500) true ∈
      (handle_button envEx ((handle_button envEx stEx 1 "confirm_BTCUSDT".data).1)
          1 "confirm_BTCUSDT".data).2.2 := by
  refine ⟨rfl, by decide, ⟨_, by rw [handle_ex]⟩, ?_, ?_, ?_⟩
  · rw [handle_ex]; simp [stEx, odEx]
  · rw [handle_ex]; simp [stEx, odEx]
  · rw [handle_ex]
    show Call.orderMarket "BTCUSDT".data (1 / 500) true ∈
      (handle_button envEx stEx 1 "confirm_BTCUSDT".data).2.2
    rw [handle_ex]
    simp

/-- C8: a valid buy stores as pending quantity the notional amount
divided by the price fetched at command time; in particular buying a
notional of 100 on BTCUSDT at price 50000 stores quantity 0.002, and the
subsequent confirm submits a market buy of exactly 0.002. -/
theorem C8_buy_quantity (env : Env) (st : PendingMap) (user_id : Nat)
    (amount : ℚ) (pairArg : Str) (price : ℚ)
    (hpair : strEndsWith (strUpper pairArg) "USDT".data = true ∨
      strEndsWith (strUpper pairArg) "USDC".data = true)
    (hprice : env.ticker_price (strUpper pairArg) = some price) (hpz : price ≠ 0) :
    ((confirm_trade env st user_id amount pairArg true).1) user_id =
      some { pair := strUpper pairArg, quantity := amount / price, is_buy := true } ∧
    (((confirm_trade envEx stEmpty 1 100 "BTCUSDT".data true).1) 1 =
        some { pair := "BTCUSDT".data, quantity := 1 / 500, is_buy := true } ∧
      Call.orderMarket "BTCUSDT".data (1 / 500) true ∈
        (handle_button envEx ((confirm_trade envEx stEmpty 1 100 "BTCUSDT".data true).1)
            1 "confirm_BTCUSDT".data).2.2) := by
  have hscen : ((confirm_trade envEx stEmpty 1 100 "BTCUSDT".data true).1) 1 =
      some { pair := "BTCUSDT".data, quantity := 1 / 500, is_buy := true } := by
    have hu : strUpper "BTCUSDT".data = "BTCUSDT".data := by decide
    have hq : command_quantity envEx 100 (strUpper "BTCUSDT".data) true =
        some (1 / 500) := by
      rw [hu]
      have hp : envEx.ticker_price "BTCUSDT".data = some 50000 := rfl
      simp [command_quantity, hp]
      norm_num
    have h := (confirm_trade_stores envEx stEmpty 1 100 "BTCUSDT".data true (1 / 500)
      (by decide) hq).1
    rw [hu] at h
    exact h
  refine ⟨?_, hscen, ?_⟩
  · have hq : command_quantity env amount (strUpper pairArg) true =
        some (amount / price) := by simp [command_quantity, hprice, hpz]
    exact (confirm_trade_stores env st user_id amount pairArg true (amount / price)
      hpair hq).1
  · have hpre : strStartsWith "confirm_BTCUSDT".data "confirm_".data = true := by decide
    have hcb : callback_pair "confirm_BTCUSDT".data = "BTCUSDT".data := by decide
    simp only [handle_button, hpre, if_pos, hcb, hscen]
    norm_num [execute_ex_lit]

/-- Witness for C8: the buy of notional 100 on BTCUSDT at price 50000
in `envEx`. -/
theorem C8_buy_quantity_witness :
    envEx.ticker_price (strUpper "BTCUSDT".data) = some 50000 ∧
    ((confirm_trade envEx stEmpty 1 100 "BTCUSDT".data true).1) 1 =
      some { pair := strUpper "BTCUSDT".data, quantity := 100 / 50000, is_buy := true } := by
  have h := (C8_buy_quantity envEx stEmpty 1 100 "BTCUSDT".data 50000 (by decide)
    (by decide) (by norm_num)).1
  exact ⟨by decide, h⟩

/-- C10: when the free-balance lookup raises, the helper returns zero
instead of propagating the failure, so any sell of a positive amount
during the failure is rejected as insufficient balance reporting an
available balance of 0, with no pending order and no order submission. -/
theorem C10_failed_lookup_rejects (env : Env) (st : PendingMap) (user_id : Nat)
    (amount : ℚ) (pairArg : Str)
    (hpair : strEndsWith (strUpper pairArg) "USDT".data = true ∨
      strEndsWith (strUpper pairArg) "USDC".data = true)
    (hfail : env.free_lookup (base_asset (strUpper pairArg)) = none)
    (hpos : 0 < amount) :
    get_asset_balance none = 0 ∧
    confirm_trade env st user_id amount pairArg false =
      (st, Msg.insufficientBalance 0 (base_asset (strUpper pairArg)),
        [Call.getAssetBalance (base_asset (strUpper pairArg))]) ∧
    ∀ p q b, Call.orderMarket p q b ∉ (confirm_trade env st user_id amount pairArg false).2.2 := by
  have hbal : get_asset_balance (env.free_lookup (base_asset (strUpper pairArg))) = 0 := by
    rw [hfail]; rfl
  have hover : get_asset_balance (env.free_lookup (base_asset (strUpper pairArg))) < amount := by
    rw [hbal]; exact hpos
  have h := C5_insufficient_balance env st user_id amount pairArg hpair hover
  refine ⟨rfl, ?_, h.2⟩
  rw [h.1, hbal]

/-- Witness for C10: sell 0.5 BTCUSDT in `envEx`, whose balance lookup
fails for BTC. -/
theorem C10_failed_lookup_rejects_witness :
    confirm_trade envEx stEmpty 1 (1 / 2) "BTCUSDT".data false =
      (stEmpty, Msg.insufficientBalance 0 "BTC".data,
        [Call.getAssetBalance "BTC".data]) := by
  have hb : base_asset (strUpper "BTCUSDT".data) = "BTC".data := by decide
  have h := (C10_failed_lookup_rejects envEx stEmpty 1 (1 / 2) "BTCUSDT".data
    (by decide) (by rw [hb]; decide) (by norm_num)).2.1
  rw [hb] at h
  exact h

/-- Membership is preserved by the stable insertion. -/
theorem mem_insert_by_value (a e : BalanceEntry) (l : List BalanceEntry) :
    a ∈ insert_by_value e l ↔ a = e ∨ a ∈ l := by
  induction l with
  | nil => simp [insert_by_value]
  | cons f rest ih =>
      simp only [insert_by_value]
      split
      · simp [List.mem_cons]
      · simp only [List.mem_cons, ih]
        tauto

/-- Membership is preserved by the sort of the balance listing. -/
theorem mem_sort_by_value (a : BalanceEntry) (l : List BalanceEntry) :
    a ∈ sort_by_value l ↔ a ∈ l := by
  induction l with
  | nil => simp [sort_by_value]
  | cons e rest ih => simp [sort_by_value, mem_insert_by_value, ih]

/-- C9: every entry of the balance listing is valued by trying the
asset against USDT first and then USDC, multiplying the free amount by
the first price that resolves, with value zero when neither pair
resolves, while the stablecoins themselves are valued at their free
amount. -/
theorem C9_valuation (ticker : Str → Option ℚ) (account : List (Str × ℚ))
    (e : BalanceEntry) (he : e ∈ get_all_balances ticker account) :
    ((e.asset = "USDT".data ∨ e.asset = "USDC".data) → e.value = e.free) ∧
    (¬ (e.asset = "USDT".data ∨ e.asset = "USDC".data) →
      ((∃ p, ticker (e.asset ++ "USDT".data) = some p ∧ e.value = e.free * p) ∨
        (ticker (e.asset ++ "USDT".data) = none ∧
          ∃ p, ticker (e.asset ++ "USDC".data) = some p ∧ e.value = e.free * p) ∨
        (ticker (e.asset ++ "USDT".data) = none ∧ ticker (e.asset ++ "USDC".data) = none ∧
          e.value = 0))) := by
  have he2 := (mem_sort_by_value e _).mp he
  obtain ⟨it, _, rfl⟩ := List.mem_map.mp he2
  constructor
  · intro hstable
    simp only [usdt_value, if_pos hstable]
  · intro hns
    simp only [usdt_value, if_neg hns, try_stable_price]
    cases h1 : ticker (it.1 ++ "USDT".data) with
    | some p => exact Or.inl ⟨p, rfl, rfl⟩
    | none =>
        cases h2 : ticker (it.1 ++ "USDC".data) with
        | some p => exact Or.inr (Or.inl ⟨rfl, p, rfl, rfl⟩)
        | none => exact Or.inr (Or.inr ⟨rfl, rfl, rfl⟩)

/-- Witness for C9: an account holding 1 BTC, valued through the
BTCUSDT ticker of `envEx`. -/
theorem C9_valuation_witness :
    ({ asset := "BTC".data, free := 1, value := 50000 } : BalanceEntry) ∈
      get_all_balances envEx.ticker_price [("BTC".data, 1)] ∧
    ((("BTC".data = "USDT".data ∨ "BTC".data = "USDC".data) → (50000 : ℚ) = 1) ∧
      (¬ ("BTC".data = "USDT".data ∨ "BTC".data = "USDC".data) →
        ((∃ p, envEx.ticker_price ("BTC".data ++ "USDT".data) = some p ∧
            (50000 : ℚ) = 1 * p) ∨
          (envEx.ticker_price ("BTC".data ++ "USDT".data) = none ∧
            ∃ p, envEx.ticker_price ("BTC".data ++ "USDC".data) = some p ∧
              (50000 : ℚ) = 1 * p) ∨
          (envEx.ticker_price ("BTC".data ++ "USDT".data) = none ∧
            envEx.ticker_price ("BTC".data ++ "USDC".data) = none ∧
            (50000 : ℚ) = 0)))) := by
  have hmem : ({ asset := "BTC".data, free := 1, value := 50000 } : BalanceEntry) ∈
      get_all_balances envEx.ticker_price [("BTC".data, 1)] := by
    have hv : usdt_value envEx.ticker_price "BTC".data 1 = 50000 := by
      have hns : ¬ ("BTC".data = "USDT".data ∨ "BTC".data = "USDC".data) := by decide
      have ht : envEx.ticker_price ("BTC".data ++ "USDT".data) = some 50000 := by decide
      simp only [usdt_value, if_neg hns, try_stable_price, ht]
      norm_num
    norm_num [get_all_balances, sort_by_value, insert_by_value, hv]
  exact ⟨hmem, C9_valuation envEx.ticker_price [("BTC".data, 1)] _ hmem⟩
